import Mathlib

/-!
Verification of the ai-lawyer retrieval-augmented generation pipeline.

The Python sources (`models.py`, `vector_store.py`, `document_processor.py`,
`legal_agents.py`, `legal_ai_system.py`) are shallowly embedded below.
Text is `List Char`; Python dict-shaped metadata is embedded as a record of
the fields the code actually reads and writes; the language-model and
vector-index services are oracles (`Except String _` valued function
parameters), matching the `try ... except` structure of the sources.
Numeric scores (similarity, confidence) are embedded as rationals.
-/

namespace AiLawyer

/-! ### String utilities shared by the embedding

These model the Python primitives the sources use: `str.strip`,
`str.lower`, membership tests (`"M" in s`), `str.split(sep)` and
`float(s)` restricted to plain decimal notation. -/

/-- Whitespace test matching Python `str.strip()` / `str.isspace` on the
characters the sources can meet in practice. -/
def isWsChar (c : Char) : Bool :=
  c = ' ' ∨ c = '\n' ∨ c = '\t' ∨ c = '\r' ∨ c = '\x0b' ∨ c = '\x0c'

/-- Python `str.strip()`: drop leading and trailing whitespace. -/
def stripL (s : List Char) : List Char :=
  ((s.dropWhile isWsChar).reverse.dropWhile isWsChar).reverse

/-- Python `str.lower()` on ASCII content. -/
def toLowerL (s : List Char) : List Char :=
  s.map Char.toLower

/-- `leadsWith p s` : `p` occurs at the start of `s`. -/
def leadsWith : List Char → List Char → Bool
  | [], _ => true
  | _ :: _, [] => false
  | a :: as, b :: bs => a = b && leadsWith as bs

theorem leadsWith_iff (p s : List Char) :
    leadsWith p s = true ↔ ∃ t, s = p ++ t := by
  induction p generalizing s with
  | nil => simp [leadsWith]
  | cons a as ih =>
    cases s with
    | nil => simp [leadsWith]
    | cons b bs =>
      simp only [leadsWith, Bool.and_eq_true, decide_eq_true_eq, ih]
      constructor
      · rintro ⟨rfl, t, rfl⟩; exact ⟨t, rfl⟩
      · rintro ⟨t, h⟩
        cases h
        exact ⟨rfl, t, rfl⟩

/-- Split `s` at the first occurrence of `sep` (left-to-right scan):
returns the text before the occurrence and the text after it, or `none`
when `sep` does not occur.  Models the scan underlying Python's
`sep in s` / `s.split(sep)`. -/
def breakOnFirst (sep : List Char) : List Char → Option (List Char × List Char)
  | [] => if sep = [] then some ([], []) else none
  | c :: rest =>
    if leadsWith sep (c :: rest) then some ([], (c :: rest).drop sep.length)
    else
      match breakOnFirst sep rest with
      | none => none
      | some (pre, post) => some (c :: pre, post)

theorem breakOnFirst_eq (sep s pre post : List Char)
    (h : breakOnFirst sep s = some (pre, post)) : s = pre ++ sep ++ post := by
  induction s generalizing pre post with
  | nil =>
    by_cases hsep : sep = ([] : List Char) <;>
      simp_all [breakOnFirst]
  | cons c rest ih =>
    simp only [breakOnFirst] at h
    by_cases hl : leadsWith sep (c :: rest) = true
    · rw [if_pos hl] at h
      rw [leadsWith_iff] at hl
      obtain ⟨t, ht⟩ := hl
      simp only [Option.some.injEq, Prod.mk.injEq] at h
      obtain ⟨h1, h2⟩ := h
      subst h1
      subst h2
      rw [List.nil_append, ht, List.drop_left]
    · rw [if_neg hl] at h
      cases hb : breakOnFirst sep rest with
      | none => simp [hb] at h
      | some pp =>
        obtain ⟨pre2, post2⟩ := pp
        simp only [hb, Option.some.injEq, Prod.mk.injEq] at h
        obtain ⟨h1, h2⟩ := h
        subst h2
        have := ih pre2 post2 hb
        subst h1
        simp [this]

/-- Python `sep in s` (the membership test guarding every marker parse). -/
def containsM (sep s : List Char) : Bool :=
  (breakOnFirst sep s).isSome

/-- The text before the first occurrence of `sep`, the whole of `s` when
`sep` is absent: Python `s.split(sep)[0]`. -/
def beforeFirst (sep s : List Char) : List Char :=
  match breakOnFirst sep s with
  | some (pre, _) => pre
  | none => s

/-- The text after the first occurrence of `sep` (empty when absent;
only used under a `containsM` guard, as the sources only index
`split(sep)[1]` under `sep in s`). -/
def afterFirst (sep s : List Char) : List Char :=
  match breakOnFirst sep s with
  | some (_, post) => post
  | none => []

/-- Python `s.split(sep)[1]` for `sep` present in `s`: the segment
between the first occurrence of `sep` and the next occurrence (or the
end of `s`). -/
def segAfterFirst (sep s : List Char) : List Char :=
  beforeFirst sep (afterFirst sep s)

/-- Python `s.split(sep)` for non-empty `sep`, via repeated first-occurrence
splitting; `fuel` bounds the recursion and is instantiated to `s.length + 1`,
which is at least the number of occurrences plus one. -/
def splitOnFuel (sep : List Char) : Nat → List Char → List (List Char)
  | 0, s => [s]
  | fuel + 1, s =>
    match breakOnFirst sep s with
    | none => [s]
    | some (pre, post) => pre :: splitOnFuel sep fuel post

/-- Python `s.split(sep)` (non-empty `sep`). -/
def splitOnL (sep s : List Char) : List (List Char) :=
  splitOnFuel sep (s.length + 1) s

/-- Python `[p.strip() for p in s.strip().split(",") if p.strip()]`:
the comma-list parse shared by the parties/issues and key-points parsers. -/
def parseCommaList (s : List Char) : List (List Char) :=
  ((splitOnL [','] (stripL s)).map stripL).filter (fun p => ¬ p = [])

/-- Digit-string to value, `none` unless `s` is all digits. -/
def parseNatL (s : List Char) : Option Nat :=
  if s = [] ∨ ¬ s.all Char.isDigit then none
  else some (s.foldl (fun a c => a * 10 + (c.toNat - 48)) 0)

/-- Unsigned decimal literal: `digits`, `digits.digits`, `digits.` or
`.digits`; the value of `ip.fp` is the rational
`(ip * 10^|fp| + fp) / 10^|fp|`, built with `mkRat`. -/
def parseFloatCore (t : List Char) : Option ℚ :=
  match splitOnL ['.'] t with
  | [ip] =>
    match parseNatL ip with
    | some n => some (mkRat n 1)
    | none => none
  | [ip, fp] =>
    if (ip = [] ∨ ip.all Char.isDigit) ∧ (fp = [] ∨ fp.all Char.isDigit) ∧
        ¬ (ip = [] ∧ fp = []) then
      some (mkRat ((parseNatL ip).getD 0 * 10 ^ fp.length + (parseNatL fp).getD 0)
        (10 ^ fp.length))
    else none
  | _ => none

/-- Python `float(s)` restricted to plain decimal notation
(`[+-]? digits [. digits] | [+-]? . digits`); scientific notation and
`inf`/`nan` are omitted, no claim relies on them.  Fails exactly when the
text is not such a decimal literal, which is what the fallback claims
are about. -/
def parseFloat (s : List Char) : Option ℚ :=
  match s with
  | [] => parseFloatCore []
  | c :: t =>
    if c = '-' then (parseFloatCore t).map (fun q => -q)
    else if c = '+' then parseFloatCore t
    else parseFloatCore (c :: t)

/-! ### Data model (`models.py`)

Pydantic models.  `created_at` timestamps and the free-form parts of the
metadata dicts that no code path reads are not represented; the metadata
dict built by ingestion and read back by retrieval is embedded as
`StoredMeta` with exactly the keys the sources access. -/

/-- `models.DocumentType` (closed string enum). -/
inductive DocumentType where
  | legal_letter
  | contract
  | notice
  | complaint
  | response
  deriving DecidableEq, Repr

/-- The string value of each `DocumentType` member. -/
def DocumentType.value : DocumentType → List Char
  | .legal_letter => "legal_letter".data
  | .contract => "contract".data
  | .notice => "notice".data
  | .complaint => "complaint".data
  | .response => "response".data

/-- `models.LegalDocument` (fields consumed by the pipeline). -/
structure LegalDocument where
  id : List Char
  filename : List Char
  content : List Char
  document_type : DocumentType
  parties_involved : List (List Char)
  key_issues : List (List Char)
  deriving DecidableEq, Repr

/-- `models.LegalResponse` (fields other than `created_at`). -/
structure LegalResponse where
  document_id : List Char
  response_type : List Char
  suggested_response : List Char
  confidence_score : ℚ
  reasoning : List Char
  key_points : List (List Char)
  tone : List Char
  deriving DecidableEq, Repr

/-- Pydantic validation of `LegalResponse`: `confidence_score` carries
`ge=0.0, le=1.0`, so construction fails (raises `ValidationError`)
exactly when the score is out of range. -/
def mkLegalResponse (document_id response_type suggested_response : List Char)
    (confidence_score : ℚ) (reasoning : List Char) (key_points : List (List Char))
    (tone : List Char) : Except (List Char) LegalResponse :=
  if 0 ≤ confidence_score ∧ confidence_score ≤ 1 then
    .ok ⟨document_id, response_type, suggested_response, confidence_score,
         reasoning, key_points, tone⟩
  else .error "ValidationError: confidence_score out of range".data

/-- The metadata dict ingestion stores per chunk: `document_id`,
`chunk_index`, `filename`, `document_type` plus the spread of the chunk's
own metadata (`parties_involved`, `key_issues`). -/
structure StoredMeta where
  document_id : List Char
  chunk_index : Nat
  filename : List Char
  document_type : List Char
  parties_involved : List (List Char)
  key_issues : List (List Char)
  deriving DecidableEq, Repr

/-- `models.DocumentChunk`: the metadata dict attached by
`DocumentProcessor.process_pdf` holds `filename`, `document_type`,
`parties_involved`, `key_issues`. -/
structure DocumentChunk where
  id : List Char
  document_id : List Char
  content : List Char
  chunk_index : Nat
  filename : List Char
  document_type : List Char
  parties_involved : List (List Char)
  key_issues : List (List Char)
  embedding : Option (List ℚ)
  deriving DecidableEq, Repr

/-- `models.SearchResult`. -/
structure SearchResult where
  chunk_id : List Char
  document_id : List Char
  content : List Char
  similarity_score : ℚ
  metadata : StoredMeta
  deriving DecidableEq, Repr

/-! ### Embedding index (`vector_store.py`, class `ChromaVectorStore`)

The ChromaDB collection is embedded as the list of stored
(id, embedding, document, metadata) rows, in insertion order.  The
external service contract assumed of ChromaDB: `collection.get(where=...)`
filters rows on the metadata field, `collection.delete(where=...)` removes
the matching rows, `collection.query` returns the nearest rows in
ascending distance order. -/

/-- One row of the `legal_documents` collection. -/
structure StoredRow where
  id : List Char
  embedding : List ℚ
  document : List Char
  metadata : StoredMeta
  deriving DecidableEq, Repr

/-- The collection state. -/
abbrev Collection := List StoredRow

/-- `ChromaVectorStore.add_chunks` writes this row per chunk. -/
def rowOfChunk (c : DocumentChunk) : StoredRow :=
  { id := c.id
    embedding := c.embedding.getD []
    document := c.content
    metadata :=
      { document_id := c.document_id
        chunk_index := c.chunk_index
        filename := c.filename
        document_type := c.document_type
        parties_involved := c.parties_involved
        key_issues := c.key_issues } }

/-- The in-place mutation in the `add_chunks` loop: a chunk lacking an
embedding gets `self._generate_embedding(chunk.content)` written onto it. -/
def fillEmbedding (embed : List Char → List ℚ) (c : DocumentChunk) : DocumentChunk :=
  { c with embedding := some (match c.embedding with
      | some e => e
      | none => embed c.content) }

/-- `ChromaVectorStore.add_chunks`.  `embed` is the sentence-transformer
oracle; `addOk` is whether the final `collection.add` call succeeds (its
failure is caught and reported as `False`).  Returns the caller's chunk
list after the loop's in-place mutation, the new collection state, and the
boolean result. -/
def add_chunks (embed : List Char → List ℚ) (addOk : Bool) (store : Collection)
    (chunks : List DocumentChunk) : List DocumentChunk × Collection × Bool :=
  let updated := chunks.map (fillEmbedding embed)
  if addOk then (updated, store ++ updated.map rowOfChunk, true)
  else (updated, store, false)

/-- One row of a `collection.query` reply: id, metadata, document text and
distance, as read back by `search_similar`. -/
structure QueryRow where
  id : List Char
  metadata : StoredMeta
  document : List Char
  distance : ℚ
  deriving DecidableEq, Repr

/-- `ChromaVectorStore.search_similar`: maps each returned row to a
`SearchResult` with `similarity_score = 1 - distance` (no clamping in the
source); any exception yields `[]`. -/
def search_similar (reply : Except (List Char) (List QueryRow)) : List SearchResult :=
  match reply with
  | .error _ => []
  | .ok rows =>
    rows.map (fun r =>
      { chunk_id := r.id
        document_id := r.metadata.document_id
        content := r.document
        similarity_score := 1 - r.distance
        metadata := r.metadata })

/-- `ChromaVectorStore.get_document_chunks`: `collection.get` filtered on
`document_id`, each row rendered as a `SearchResult` with
`similarity_score = 1.0`. -/
def get_document_chunks (store : Collection) (document_id : List Char) :
    List SearchResult :=
  ((store.filter (fun r => r.metadata.document_id = document_id)).map (fun r =>
    { chunk_id := r.id
      document_id := r.metadata.document_id
      content := r.document
      similarity_score := 1
      metadata := r.metadata }))

/-- `ChromaVectorStore.delete_document`: `collection.delete(where=
{"document_id": document_id})`, returning `True`. -/
def delete_document (store : Collection) (document_id : List Char) :
    Collection × Bool :=
  (store.filter (fun r => ¬ r.metadata.document_id = document_id), true)

/-! ### Claims about the embedding index -/

/-- Sample metadata used in concrete witnesses. -/
def sampleMeta : StoredMeta :=
  { document_id := "doc1".data
    chunk_index := 0
    filename := "a.pdf".data
    document_type := "contract".data
    parties_involved := []
    key_issues := [] }

/-- C1 (counterexample): the claim says every returned similarity score
lies in [0,1] because similarity is 1 minus normalized distance clamped to
[0,1].  `search_similar` performs no clamping: on a query reply whose
distance is 3/2 (ChromaDB's default squared-L2 distances routinely exceed
1), the returned score is -1/2, outside [0,1]. -/
theorem C1_counterexample :
    (search_similar (.ok [⟨"c1".data, sampleMeta, "text".data, 3 / 2⟩])).map
        (fun r => r.similarity_score) = [-(1 / 2 : ℚ)] ∧
    ¬ (0 ≤ (-(1 / 2) : ℚ)) := by
  constructor
  · simp only [search_similar, List.map_map, List.map_cons, List.map_nil,
      Function.comp]
    norm_num
  · norm_num

/-- C1 (amended): whenever the vector index returns its rows in ascending
distance order (the k-nearest-neighbor contract), `search_similar` returns
results in descending similarity order, and each returned score equals
1 minus the row's distance — so a score lies in [0,1] exactly when the
distance does; no clamping is applied. -/
theorem C1_amended (rows : List QueryRow)
    (hsort : rows.Pairwise (fun a b => a.distance ≤ b.distance)) :
    (search_similar (.ok rows)).Pairwise
        (fun a b => b.similarity_score ≤ a.similarity_score) ∧
    ∀ r ∈ search_similar (.ok rows), ∃ q ∈ rows,
      r.similarity_score = 1 - q.distance ∧
      ((0 ≤ r.similarity_score ∧ r.similarity_score ≤ 1) ↔
        (0 ≤ q.distance ∧ q.distance ≤ 1)) := by
  constructor
  · exact List.Pairwise.map _
      (fun a b (h : a.distance ≤ b.distance) => by
        simp only []
        linarith) hsort
  · intro r hr
    simp only [search_similar, List.mem_map] at hr
    obtain ⟨q, hq, rfl⟩ := hr
    refine ⟨q, hq, rfl, ?_⟩
    constructor
    · rintro ⟨h1, h2⟩
      constructor <;> [skip; skip] <;> simp only [] at h1 h2 <;> linarith
    · rintro ⟨h1, h2⟩
      constructor <;> simp only [] <;> linarith

/-- C1 (witness for the amended theorem): a concrete two-row reply with
distances 0 and 1 is ascending, and the returned scores are descending. -/
theorem C1_amended_witness :
    (([⟨"c1".data, sampleMeta, "t1".data, 0⟩,
       ⟨"c2".data, sampleMeta, "t2".data, 1⟩] : List QueryRow).Pairwise
      (fun a b => a.distance ≤ b.distance)) ∧
    (search_similar (.ok [⟨"c1".data, sampleMeta, "t1".data, 0⟩,
       ⟨"c2".data, sampleMeta, "t2".data, 1⟩])).Pairwise
      (fun a b => b.similarity_score ≤ a.similarity_score) := by
  have h : (([⟨"c1".data, sampleMeta, "t1".data, 0⟩,
       ⟨"c2".data, sampleMeta, "t2".data, 1⟩] : List QueryRow)).Pairwise
      (fun a b => a.distance ≤ b.distance) := by
    norm_num [List.pairwise_cons]
  exact ⟨h, (C1_amended _ h).1⟩

/-- C8: deleting a document removes exactly its chunks and reports
success: afterwards `get_document_chunks` on that id is empty, a second
delete is a no-op that still succeeds, and deleting an id no stored chunk
references returns the collection unchanged with success. -/
theorem C8_delete_idempotent (store : Collection) (document_id : List Char) :
    get_document_chunks (delete_document store document_id).1 document_id = [] ∧
    delete_document (delete_document store document_id).1 document_id =
      ((delete_document store document_id).1, true) ∧
    (delete_document store document_id).2 = true ∧
    ((∀ r ∈ store, ¬ r.metadata.document_id = document_id) →
      delete_document store document_id = (store, true)) := by
  refine ⟨?_, ?_, rfl, ?_⟩
  · simp only [get_document_chunks, delete_document, List.filter_filter,
      List.map_eq_nil_iff, List.filter_eq_nil_iff]
    intro r _ h
    simp only [Bool.and_eq_true, decide_eq_true_eq] at h
    exact absurd h.1 h.2
  · simp only [delete_document, Prod.mk.injEq, List.filter_filter, and_true]
    congr 1
    funext r
    cases hd : decide (¬ r.metadata.document_id = document_id) <;>
      simp [hd]
  · intro h
    simp only [delete_document, Prod.mk.injEq, and_true]
    exact List.filter_eq_self.mpr (fun r hr => by
      simpa using h r hr)

/-- C8 (witness): on a one-row collection for "doc1", deleting the absent
id "doc2" succeeds and removes zero rows, and a delete-then-get on "doc1"
returns the empty sequence. -/
theorem C8_delete_idempotent_witness :
    (delete_document [⟨"c1".data, [], "t".data, sampleMeta⟩] "doc2".data =
      ([⟨"c1".data, [], "t".data, sampleMeta⟩], true)) ∧
    get_document_chunks
      (delete_document [⟨"c1".data, [], "t".data, sampleMeta⟩] "doc1".data).1
      "doc1".data = [] := by
  constructor
  · exact (C8_delete_idempotent [⟨"c1".data, [], "t".data, sampleMeta⟩]
      "doc2".data).2.2.2 (by
        intro r hr
        simp only [List.mem_singleton] at hr
        subst hr
        simp [sampleMeta])
  · exact (C8_delete_idempotent [⟨"c1".data, [], "t".data, sampleMeta⟩]
      "doc1".data).1

/-- C10: `add_chunks` mutates its input list in place — the returned
caller-visible chunk list is exactly the input with each missing embedding
filled in by the embedding model — and after a successful call every chunk
in that list has a non-`None` embedding. -/
theorem C10_add_chunks_mutates (embed : List Char → List ℚ) (addOk : Bool)
    (store : Collection) (chunks : List DocumentChunk) :
    (add_chunks embed addOk store chunks).1 =
      chunks.map (fillEmbedding embed) ∧
    ((add_chunks embed addOk store chunks).2.2 = true →
      ∀ c ∈ (add_chunks embed addOk store chunks).1, c.embedding.isSome) := by
  constructor
  · cases addOk <;> simp [add_chunks]
  · intro _ c hc
    have h1 : (add_chunks embed addOk store chunks).1 =
        chunks.map (fillEmbedding embed) := by
      cases addOk <;> simp [add_chunks]
    rw [h1] at hc
    simp only [List.mem_map] at hc
    obtain ⟨c0, _, rfl⟩ := hc
    simp [fillEmbedding]

/-- C10 (witness): a concrete successful call on a chunk with no
embedding: the call succeeds and every returned chunk has an embedding. -/
theorem C10_add_chunks_mutates_witness :
    (add_chunks (fun _ => [1]) true []
      [⟨"c1".data, "doc1".data, "t".data, 0, "a.pdf".data, "contract".data,
        [], [], none⟩]).2.2 = true ∧
    ∀ c ∈ (add_chunks (fun _ => [1]) true []
      [⟨"c1".data, "doc1".data, "t".data, 0, "a.pdf".data, "contract".data,
        [], [], none⟩]).1, c.embedding.isSome := by
  refine ⟨rfl, ?_⟩
  exact (C10_add_chunks_mutates (fun _ => [1]) true []
    [⟨"c1".data, "doc1".data, "t".data, 0, "a.pdf".data, "contract".data,
      [], [], none⟩]).2 rfl

/-! ### Fact extractor (`document_processor.py`, class `DocumentProcessor`)

`classify_document_type` and `extract_parties_and_issues` each make one
completion call (over the first 2000 characters of the document) and parse
the reply; the whole body sits in `try ... except`, so a failed call is
the `.error` case of the reply oracle. -/

/-- `DocumentProcessor.classify_document_type`: strip and lower-case the
reply, look it up in the closed `type_mapping`, default
`DocumentType.LEGAL_LETTER`; any exception also yields the default. -/
def classify_document_type (reply : Except (List Char) (List Char)) :
    DocumentType :=
  match reply with
  | .error _ => .legal_letter
  | .ok content =>
    let doc_type_str := toLowerL (stripL content)
    if doc_type_str = "legal_letter".data then .legal_letter
    else if doc_type_str = "contract".data then .contract
    else if doc_type_str = "notice".data then .notice
    else if doc_type_str = "complaint".data then .complaint
    else if doc_type_str = "response".data then .response
    else .legal_letter

/-- `DocumentProcessor.extract_parties_and_issues`: locate the
`PARTIES:` and `ISSUES:` markers, take the text from each marker to the
next marker (`split(marker)[1]`, then `split("ISSUES:")[0]` for the
parties section) and comma-split it; a missing marker leaves the empty
list; any exception yields `([], [])`. -/
def extract_parties_and_issues (reply : Except (List Char) (List Char)) :
    List (List Char) × List (List Char) :=
  match reply with
  | .error _ => ([], [])
  | .ok response_text =>
    let parties :=
      if containsM "PARTIES:".data response_text then
        parseCommaList (beforeFirst "ISSUES:".data
          (segAfterFirst "PARTIES:".data response_text))
      else []
    let issues :=
      if containsM "ISSUES:".data response_text then
        parseCommaList (segAfterFirst "ISSUES:".data response_text)
      else []
    (parties, issues)

/-- C5: every classification call is total with the fixed default: a call
failure returns `legal_letter`, and a reply whose stripped, lower-cased
form is outside the closed document-type set also returns `legal_letter`. -/
theorem C5_classify_fallback (e content : List Char)
    (h : ¬ toLowerL (stripL content) ∈
      ["legal_letter".data, "contract".data, "notice".data,
       "complaint".data, "response".data]) :
    classify_document_type (.error e) = .legal_letter ∧
    classify_document_type (.ok content) = .legal_letter := by
  refine ⟨rfl, ?_⟩
  simp only [List.mem_cons, List.mem_singleton, not_or] at h
  obtain ⟨h1, h2, h3, h4, h5, _⟩ := h
  simp [classify_document_type, h1, h2, h3, h4, h5]

/-- C5 (witness): the reply "It reads like a memo." matches no category
keyword and classifies to the default `legal_letter`; a failed call does
too. -/
theorem C5_classify_fallback_witness :
    classify_document_type (.error "timeout".data) = .legal_letter ∧
    classify_document_type (.ok "It reads like a memo.".data) = .legal_letter :=
  C5_classify_fallback "timeout".data "It reads like a memo.".data (by decide)

/-- C6: extraction parses each field by locating its marker and
comma-splitting the text from the marker to the next marker or the end of
the reply; a missing marker yields the empty list for that field, and a
failed call yields two empty lists — never an error. -/
theorem C6_extraction_markers (e text : List Char) :
    extract_parties_and_issues (.error e) = ([], []) ∧
    (¬ containsM "PARTIES:".data text = true →
      (extract_parties_and_issues (.ok text)).1 = []) ∧
    (¬ containsM "ISSUES:".data text = true →
      (extract_parties_and_issues (.ok text)).2 = []) ∧
    (containsM "PARTIES:".data text = true →
      (extract_parties_and_issues (.ok text)).1 =
        parseCommaList (beforeFirst "ISSUES:".data
          (segAfterFirst "PARTIES:".data text))) ∧
    (containsM "ISSUES:".data text = true →
      (extract_parties_and_issues (.ok text)).2 =
        parseCommaList (segAfterFirst "ISSUES:".data text)) := by
  refine ⟨rfl, ?_, ?_, ?_, ?_⟩ <;> intro h <;>
    simp [extract_parties_and_issues, h]

/-- C6 (witness): a reply carrying both markers parses into the two
comma-split lists, and a reply missing the `PARTIES:` marker parses to an
empty parties list. -/
theorem C6_extraction_markers_witness :
    (extract_parties_and_issues
      (.ok "PARTIES: Acme Corp, Bob ISSUES: breach of contract".data)).1 =
      ["Acme Corp".data, "Bob".data] ∧
    (extract_parties_and_issues (.ok "no markers here".data)).1 = [] := by
  constructor
  · rw [(C6_extraction_markers "".data
      "PARTIES: Acme Corp, Bob ISSUES: breach of contract".data).2.2.2.1
      (by decide)]
    decide
  · exact (C6_extraction_markers "".data "no markers here".data).2.1
      (by decide)

/-! ### Retrieval-augmented generator (`legal_agents.py`, class
`LegalAgentSystem`)

`generate_legal_response` runs analyze, precedent search, generate and
evaluate in sequence inside one `try ... except`.  The three completion
tools and the evaluation completion call are oracles.
`_evaluate_response_quality` has its own `try ... except`, so its failures
never reach the outer handler. -/

/-- Parsed fields of an evaluate-stage reply (the dict
`_evaluate_response_quality` returns). -/
structure EvalResult where
  confidence : ℚ
  reasoning : List Char
  key_points : List (List Char)
  deriving DecidableEq, Repr

/-- Confidence parse: `eval_text.split("CONFIDENCE:")[1].split("REASONING:")[0]`
stripped and given to `float`; default 0.5 when the marker is missing or
the float parse fails. -/
def parseConfidence (eval_text : List Char) : ℚ :=
  if containsM "CONFIDENCE:".data eval_text then
    match parseFloat (stripL (beforeFirst "REASONING:".data
        (segAfterFirst "CONFIDENCE:".data eval_text))) with
    | some v => v
    | none => mkRat 1 2
  else mkRat 1 2

/-- Reasoning parse: `eval_text.split("REASONING:")[1].split("KEY_POINTS:")[0]`
stripped; default "Standard evaluation" when the marker is missing. -/
def parseReasoning (eval_text : List Char) : List Char :=
  if containsM "REASONING:".data eval_text then
    stripL (beforeFirst "KEY_POINTS:".data
      (segAfterFirst "REASONING:".data eval_text))
  else "Standard evaluation".data

/-- Key-points parse: `eval_text.split("KEY_POINTS:")[1]` comma-split;
default `[]` when the marker is missing. -/
def parseKeyPoints (eval_text : List Char) : List (List Char) :=
  if containsM "KEY_POINTS:".data eval_text then
    parseCommaList (segAfterFirst "KEY_POINTS:".data eval_text)
  else []

/-- The marker-scanning parse of an evaluate-stage reply; the three
sections are parsed independently of one another. -/
def parseEvaluation (eval_text : List Char) : EvalResult :=
  ⟨parseConfidence eval_text, parseReasoning eval_text, parseKeyPoints eval_text⟩

/-- `LegalAgentSystem._evaluate_response_quality`: parse the evaluation
reply; a failed call (the `except` branch) yields confidence 0.5,
reasoning "Evaluation failed" and no key points. -/
def evaluate_response_quality (reply : Except (List Char) (List Char)) :
    EvalResult :=
  match reply with
  | .error _ => ⟨mkRat 1 2, "Evaluation failed".data, []⟩
  | .ok eval_text => parseEvaluation eval_text

/-- The four external completion calls `generate_legal_response` makes,
each of which may raise (`.error`). -/
structure Oracles where
  analyze : List Char → Except (List Char) (List Char)
  precedents : List Char → Except (List Char) (List Char)
  generate : List Char → List Char → List Char → Except (List Char) (List Char)
  evaluate : List Char → List Char → List Char → Except (List Char) (List Char)

/-- The precedent-search query string built in step 2:
`f"legal issues: {issues} parties: {parties}"` with comma-joined lists. -/
def searchQuery (document : LegalDocument) : List Char :=
  "legal issues: ".data ++ List.intercalate ", ".data document.key_issues ++
    " parties: ".data ++ List.intercalate ", ".data document.parties_involved

/-- The error-tagged response returned by the `except` branch of
`generate_legal_response`. -/
def errorResponse (document_id response_type : List Char) : LegalResponse :=
  { document_id := document_id
    response_type := response_type
    suggested_response := "Error generating response. Please try again.".data
    confidence_score := 0
    reasoning := "Error occurred during response generation".data
    key_points := []
    tone := "error".data }

/-- `LegalAgentSystem.generate_legal_response`: the four-stage pipeline.
Steps 1-3 are completion calls whose exceptions reach the outer handler;
step 4 absorbs its own failures; pydantic validation of the assembled
`LegalResponse` can also raise into the outer handler, which returns
`errorResponse`. -/
def generate_legal_response (o : Oracles) (document : LegalDocument)
    (response_type : List Char) : LegalResponse :=
  let attempt : Except (List Char) LegalResponse := do
    let analysis ← o.analyze (document.content.take 3000)
    let precedents ← o.precedents (searchQuery document)
    let suggested ← o.generate analysis precedents response_type
    let ev := evaluate_response_quality
      (o.evaluate (List.intercalate ", ".data document.key_issues)
        (List.intercalate ", ".data document.parties_involved) suggested)
    mkLegalResponse document.id response_type suggested ev.confidence
      ev.reasoning ev.key_points response_type
  match attempt with
  | .ok r => r
  | .error _ => errorResponse document.id response_type

/-- C3: parsing an evaluate-stage reply is total with the documented
defaults: a failed call gives confidence 0.5, a missing or unparseable
`CONFIDENCE:` section falls back to 0.5, a missing `REASONING:` section
to the fixed default string, and a missing `KEY_POINTS:` section to the
empty list while confidence and reasoning are still parsed from the
sections present. -/
theorem C3_evaluation_defaults (e eval_text : List Char) :
    evaluate_response_quality (.error e) =
      ⟨mkRat 1 2, "Evaluation failed".data, []⟩ ∧
    evaluate_response_quality (.ok eval_text) = parseEvaluation eval_text ∧
    (¬ containsM "CONFIDENCE:".data eval_text = true →
      (parseEvaluation eval_text).confidence = mkRat 1 2) ∧
    (containsM "CONFIDENCE:".data eval_text = true →
      parseFloat (stripL (beforeFirst "REASONING:".data
        (segAfterFirst "CONFIDENCE:".data eval_text))) = none →
      (parseEvaluation eval_text).confidence = mkRat 1 2) ∧
    (¬ containsM "REASONING:".data eval_text = true →
      (parseEvaluation eval_text).reasoning = "Standard evaluation".data) ∧
    (¬ containsM "KEY_POINTS:".data eval_text = true →
      (parseEvaluation eval_text).key_points = [] ∧
      (parseEvaluation eval_text).confidence = parseConfidence eval_text ∧
      (parseEvaluation eval_text).reasoning = parseReasoning eval_text) := by
  refine ⟨rfl, rfl, ?_, ?_, ?_, ?_⟩
  · intro h
    simp [parseEvaluation, parseConfidence, h]
  · intro h hf
    simp [parseEvaluation, parseConfidence, h, hf]
  · intro h
    simp [parseEvaluation, parseReasoning, h]
  · intro h
    exact ⟨by simp [parseEvaluation, parseKeyPoints, h], rfl, rfl⟩

/-- C3 (witness): the reply "CONFIDENCE: 0.8\nREASONING: solid" has no
`KEY_POINTS:` marker; its parse has `key_points = []` while confidence
(0.8) and reasoning ("solid") are populated from the sections present. -/
theorem C3_evaluation_defaults_witness :
    (parseEvaluation "CONFIDENCE: 0.8\nREASONING: solid".data).key_points
      = [] ∧
    (parseEvaluation "CONFIDENCE: 0.8\nREASONING: solid".data).confidence
      = mkRat 8 10 ∧
    (parseEvaluation "CONFIDENCE: 0.8\nREASONING: solid".data).reasoning
      = "solid".data := by
  refine ⟨((C3_evaluation_defaults []
    "CONFIDENCE: 0.8\nREASONING: solid".data).2.2.2.2.2 (by decide)).1,
    by decide, by decide⟩

/-- C2: once started, the pipeline always completes: for every behavior
of the four external calls it returns either the full response assembled
from the generate and evaluate stages, or the error-tagged response
(confidence 0.0, tone "error"); no stage raises out of
`generate_legal_response`. -/
theorem C2_pipeline_total (o : Oracles) (document : LegalDocument)
    (response_type : List Char) :
    ((errorResponse document.id response_type).confidence_score = 0 ∧
      (errorResponse document.id response_type).tone = "error".data) ∧
    (generate_legal_response o document response_type =
        errorResponse document.id response_type ∨
      ∃ analysis precedents suggested,
        o.analyze (document.content.take 3000) = .ok analysis ∧
        o.precedents (searchQuery document) = .ok precedents ∧
        o.generate analysis precedents response_type = .ok suggested ∧
        generate_legal_response o document response_type =
          { document_id := document.id
            response_type := response_type
            suggested_response := suggested
            confidence_score := (evaluate_response_quality
              (o.evaluate (List.intercalate ", ".data document.key_issues)
                (List.intercalate ", ".data document.parties_involved)
                suggested)).confidence
            reasoning := (evaluate_response_quality
              (o.evaluate (List.intercalate ", ".data document.key_issues)
                (List.intercalate ", ".data document.parties_involved)
                suggested)).reasoning
            key_points := (evaluate_response_quality
              (o.evaluate (List.intercalate ", ".data document.key_issues)
                (List.intercalate ", ".data document.parties_involved)
                suggested)).key_points
            tone := response_type }) := by
  refine ⟨⟨rfl, rfl⟩, ?_⟩
  unfold generate_legal_response
  cases ha : o.analyze (document.content.take 3000) with
  | error ea =>
    left
    simp [ha, Except.bind, bind]
  | ok analysis =>
    cases hp : o.precedents (searchQuery document) with
    | error ep =>
      left
      simp [ha, hp, Except.bind, bind]
    | ok precedents =>
      cases hg : o.generate analysis precedents response_type with
      | error eg =>
        left
        simp [ha, hp, hg, Except.bind, bind]
      | ok suggested =>
        by_cases hb :
          0 ≤ (evaluate_response_quality
              (o.evaluate (List.intercalate ", ".data document.key_issues)
                (List.intercalate ", ".data document.parties_involved)
                suggested)).confidence ∧
            (evaluate_response_quality
              (o.evaluate (List.intercalate ", ".data document.key_issues)
                (List.intercalate ", ".data document.parties_involved)
                suggested)).confidence ≤ 1
        · right
          exact ⟨analysis, precedents, suggested, rfl, rfl, hg, by
            simp [ha, hp, hg, Except.bind, bind, mkLegalResponse, hb]⟩
        · left
          simp [ha, hp, hg, Except.bind, bind, mkLegalResponse, hb]

/-- C9: every response the pipeline returns has `confidence_score` within
[0,1] (the pydantic field constraint), and when the evaluate stage parses
a confidence outside [0,1] after the first three stages succeeded, the
response fails validation and the pipeline returns the error-tagged
response with confidence 0.0 instead of clamping. -/
theorem C9_confidence_validated (o : Oracles) (document : LegalDocument)
    (response_type : List Char) :
    (0 ≤ (generate_legal_response o document response_type).confidence_score ∧
      (generate_legal_response o document response_type).confidence_score ≤ 1) ∧
    (∀ analysis precedents suggested,
      o.analyze (document.content.take 3000) = .ok analysis →
      o.precedents (searchQuery document) = .ok precedents →
      o.generate analysis precedents response_type = .ok suggested →
      ¬ (0 ≤ (evaluate_response_quality
            (o.evaluate (List.intercalate ", ".data document.key_issues)
              (List.intercalate ", ".data document.parties_involved)
              suggested)).confidence ∧
          (evaluate_response_quality
            (o.evaluate (List.intercalate ", ".data document.key_issues)
              (List.intercalate ", ".data document.parties_involved)
              suggested)).confidence ≤ 1) →
      generate_legal_response o document response_type =
        errorResponse document.id response_type) := by
  constructor
  · unfold generate_legal_response
    cases ha : o.analyze (document.content.take 3000) with
    | error ea =>
      simp [ha, Except.bind, bind, errorResponse]
    | ok analysis =>
      cases hp : o.precedents (searchQuery document) with
      | error ep =>
        simp [ha, hp, Except.bind, bind, errorResponse]
      | ok precedents =>
        cases hg : o.generate analysis precedents response_type with
        | error eg =>
          simp [ha, hp, hg, Except.bind, bind, errorResponse]
        | ok suggested =>
          by_cases hb :
            0 ≤ (evaluate_response_quality
                (o.evaluate (List.intercalate ", ".data document.key_issues)
                  (List.intercalate ", ".data document.parties_involved)
                  suggested)).confidence ∧
              (evaluate_response_quality
                (o.evaluate (List.intercalate ", ".data document.key_issues)
                  (List.intercalate ", ".data document.parties_involved)
                  suggested)).confidence ≤ 1
          · simp only [ha, hp, hg, Except.bind, bind, mkLegalResponse,
              if_pos hb]
            exact hb
          · simp [ha, hp, hg, Except.bind, bind, mkLegalResponse, hb,
              errorResponse]
  · intro analysis precedents suggested ha hp hg hb
    unfold generate_legal_response
    simp [ha, hp, hg, Except.bind, bind, mkLegalResponse, hb]

/-- Concrete oracles for the C9 witness: the three generation stages
succeed and the evaluate stage replies with an out-of-range confidence. -/
def oraclesC9 : Oracles :=
  { analyze := fun _ => .ok "analysis".data
    precedents := fun _ => .ok "precedents".data
    generate := fun _ _ _ => .ok "candidate response".data
    evaluate := fun _ _ _ => .ok "CONFIDENCE: 1.5\nREASONING: over".data }

/-- Concrete document for the C9 and C7 witnesses. -/
def docW : LegalDocument :=
  { id := "doc1".data
    filename := "a.pdf".data
    content := "some text".data
    document_type := .contract
    parties_involved := []
    key_issues := [] }

/-- C9 (witness): with the evaluate stage parsing confidence 1.5, the
pipeline returns the error-tagged response, whose confidence is 0. -/
theorem C9_confidence_validated_witness :
    generate_legal_response oraclesC9 docW "professional".data =
      errorResponse "doc1".data "professional".data ∧
    (generate_legal_response oraclesC9 docW
      "professional".data).confidence_score = 0 := by
  have h : generate_legal_response oraclesC9 docW "professional".data =
      errorResponse docW.id "professional".data :=
    (C9_confidence_validated oraclesC9 docW "professional".data).2
      "analysis".data "precedents".data "candidate response".data
      rfl rfl rfl (by decide)
  exact ⟨h, by rw [h]; rfl⟩

/-! ### Orchestrator (`legal_ai_system.py`, class `LegalAISystem`) -/

/-- Pydantic coercion of a metadata string onto the `DocumentType` enum
when `generate_response_for_document` rebuilds a `LegalDocument`;
a value outside the enum raises `ValidationError` (the `none` case). -/
def parseDocType (s : List Char) : Option DocumentType :=
  if s = "legal_letter".data then some .legal_letter
  else if s = "contract".data then some .contract
  else if s = "notice".data then some .notice
  else if s = "complaint".data then some .complaint
  else if s = "response".data then some .response
  else none

/-- `LegalAISystem.generate_response_for_document`: fetch the document's
chunks; an empty result returns `None`; otherwise rebuild the document
from the chunks' contents (newline-joined) and the first chunk's metadata
and run the generation pipeline.  A `ValidationError` while rebuilding is
caught by the surrounding `except`, which also returns `None`. -/
def generate_response_for_document (o : Oracles) (store : Collection)
    (document_id response_type : List Char) : Option LegalResponse :=
  match get_document_chunks store document_id with
  | [] => none
  | c :: cs =>
    let content := List.intercalate "\n".data
      ((c :: cs).map (fun r => r.content))
    let metadata := c.metadata
    match parseDocType metadata.document_type with
    | none => none
    | some dt =>
      some (generate_legal_response o
        { id := document_id
          filename := metadata.filename
          content := content
          document_type := dt
          parties_involved := metadata.parties_involved
          key_issues := metadata.key_issues } response_type)

/-- C7: a respond call on a document id for which the index holds zero
chunks returns `None`, not a generated response. -/
theorem C7_not_found (o : Oracles) (store : Collection)
    (document_id response_type : List Char)
    (h : get_document_chunks store document_id = []) :
    generate_response_for_document o store document_id response_type
      = none := by
  unfold generate_response_for_document
  rw [h]

/-- C7 (witness): on the empty collection, requesting a response for
"doc1" returns `None`. -/
theorem C7_not_found_witness :
    get_document_chunks ([] : Collection) "doc1".data = [] ∧
    generate_response_for_document oraclesC9 ([] : Collection) "doc1".data
      "professional".data = none :=
  ⟨rfl, C7_not_found oraclesC9 [] "doc1".data "professional".data rfl⟩

/-! ### Chunker (`document_processor.py` via langchain's
`RecursiveCharacterTextSplitter`)

`DocumentProcessor.__init__` configures
`RecursiveCharacterTextSplitter(chunk_size=1000, chunk_overlap=200,
length_function=len, separators=["\n\n", "\n", ". ", " ", ""])`, leaving
the library defaults `keep_separator=True` and `strip_whitespace=True`.
The library algorithm is embedded below: `_split_text` picks the first
separator occurring in the text (falling through to later ones), splits
keeping each separator attached to the front of the following piece,
recursively re-splits pieces at least as long as `chunk_size`, and merges
consecutive short pieces with `_merge_splits`, which joins with the empty
separator (because `keep_separator` is true), strips whitespace from each
emitted chunk, and retains up to `chunk_overlap` length of trailing
pieces as the start of the next chunk. -/

/-- `_split_text_with_regex` with `keep_separator` true: Python
`re.split` on the escaped separator with a capture group, each separator
re-attached to the front of the piece after it. -/
def splitKeep (sep s : List Char) : List (List Char) :=
  match splitOnL sep s with
  | [] => []
  | x :: xs => x :: xs.map (fun y => sep ++ y)

/-- `_split_text_with_regex` including the empty-separator case
(`list(text)`) and the trailing filter of empty pieces. -/
def splitTextWithSep (sep text : List Char) : List (List Char) :=
  (if sep = [] then text.map (fun c => [c]) else splitKeep sep text).filter
    (fun s => ¬ s = [])

/-- The separator-selection loop at the top of `_split_text`: the first
separator that is empty or occurs in the text is chosen together with the
list of later separators; if none matches, the last separator is chosen
with no later ones. -/
def chooseSep (text : List Char) : List (List Char) → List Char × List (List Char)
  | [] => ([], [])
  | [s] => if s = [] then ([], []) else (s, [])
  | s :: rest =>
    if s = [] then ([], [])
    else if containsM s text then (s, rest)
    else chooseSep text rest

/-- `_join_docs`: join with the separator, strip whitespace (the
`strip_whitespace=True` default), drop the chunk if it strips to empty. -/
def joinDocs (sep : List Char) (docs : List (List Char)) : Option (List Char) :=
  let text := stripL (List.intercalate sep docs)
  if text = [] then none else some text

/-- The overlap-retention `while` loop inside `_merge_splits`: pop pieces
from the front of the current chunk while the running total exceeds
`chunk_overlap`, or adding the new piece would exceed `chunk_size` with a
non-empty total.  (With an empty current chunk the total is 0 and the
loop never runs, so the empty case returning the state unchanged is
unreachable under the invariant.) -/
def popOverlap (cs ov sepLen dLen : Int) :
    List (List Char) → Int → List (List Char) × Int
  | [], total => ([], total)
  | c :: rest, total =>
    if total > ov ∨
        (total + dLen + (if (c :: rest).length > 0 then sepLen else 0) > cs ∧
          total > 0) then
      popOverlap cs ov sepLen dLen rest
        (total - ((c.length : Int) + (if rest.length > 0 then sepLen else 0)))
    else (c :: rest, total)

/-- The main loop of `_merge_splits` over the pieces: when the next piece
would overflow `chunk_size`, emit the current chunk and keep an overlap;
then append the piece and continue.  The running `total` counts piece
lengths plus a separator length between adjacent pieces. -/
def mergeSplitsAux (cs ov sepLen : Int) (sep : List Char) :
    List (List Char) → List (List Char) → List (List Char) → Int →
    List (List Char)
  | [], docs, cur, _ =>
    (match joinDocs sep cur with
     | some d => docs ++ [d]
     | none => docs)
  | d :: ds, docs, cur, total =>
    let len : Int := d.length
    let state :=
      if total + len + (if cur.length > 0 then sepLen else 0) > cs then
        (if cur.length > 0 then
          let docs2 :=
            match joinDocs sep cur with
            | some dd => docs ++ [dd]
            | none => docs
          let p := popOverlap cs ov sepLen len cur total
          (docs2, p.1, p.2)
        else (docs, cur, total))
      else (docs, cur, total)
    let cur2 := state.2.1 ++ [d]
    let total2 := state.2.2 + len + (if cur2.length > 1 then sepLen else 0)
    mergeSplitsAux cs ov sepLen sep ds state.1 cur2 total2

/-- `_merge_splits(splits, separator)`. -/
def mergeSplits (cs ov : Int) (sep : List Char) (splits : List (List Char)) :
    List (List Char) :=
  mergeSplitsAux cs ov (sep.length : Int) sep splits [] [] 0

/-- The piece loop of `_split_text`: short pieces accumulate and are
merged (with the empty separator, since `keep_separator` is true); a
piece at least `chunk_size` long flushes the accumulated good pieces and
is handled by `handleBig` (kept whole, or recursively re-split). -/
def splitGo (cs ov : Int) (handleBig : List Char → List (List Char)) :
    List (List Char) → List (List Char) → List (List Char)
  | [], good => if good = [] then [] else mergeSplits cs ov [] good
  | s :: rest, good =>
    if (s.length : Int) < cs then splitGo cs ov handleBig rest (good ++ [s])
    else
      (if good = [] then [] else mergeSplits cs ov [] good) ++ handleBig s ++
        splitGo cs ov handleBig rest []

/-- `_split_text(text, separators)`.  The recursion re-splits an
oversized piece with the separators after the chosen one; `fuel` bounds
the recursion depth and is instantiated to the separator-list length,
which the strictly shrinking separator list never exceeds, so the
fuel-exhausted base case is unreachable. -/
def splitTextFuel (cs ov : Int) : Nat → List (List Char) → List Char →
    List (List Char)
  | 0, _, text => [text]
  | fuel + 1, seps, text =>
    let p := chooseSep text seps
    let splits := splitTextWithSep p.1 text
    splitGo cs ov
      (fun s => if p.2 = [] then [s] else splitTextFuel cs ov fuel p.2 s)
      splits []

/-- The separator priority list configured in `DocumentProcessor.__init__`. -/
def splitterSeparators : List (List Char) :=
  ["\n\n".data, "\n".data, ". ".data, " ".data, "".data]

/-- `text_splitter.split_text(content)` as called by
`DocumentProcessor.create_chunks`, with `chunk_size=1000` and
`chunk_overlap=200`. -/
def split_text (text : List Char) : List (List Char) :=
  splitTextFuel 1000 200 splitterSeparators.length splitterSeparators text

/-! ### Reconstruction lemmas for the chunker -/

/-- Join a piece list re-inserting the separator between pieces (what the
keep-separator split decomposes the text into). -/
def joinWithSep (sep : List Char) : List (List Char) → List Char
  | [] => []
  | [x] => x
  | x :: xs => x ++ sep ++ joinWithSep sep xs

theorem splitOnFuel_ne_nil (sep : List Char) (fuel : Nat) (s : List Char) :
    ¬ splitOnFuel sep fuel s = [] := by
  cases fuel with
  | zero => simp [splitOnFuel]
  | succ n =>
    simp only [splitOnFuel]
    cases h : breakOnFirst sep s with
    | none => simp
    | some p => cases p; simp

theorem joinWithSep_splitOnFuel (sep : List Char) :
    ∀ (fuel : Nat) (s : List Char),
      joinWithSep sep (splitOnFuel sep fuel s) = s := by
  intro fuel
  induction fuel with
  | zero => intro s; rfl
  | succ n ih =>
    intro s
    simp only [splitOnFuel]
    cases h : breakOnFirst sep s with
    | none => rfl
    | some p =>
      obtain ⟨pre, post⟩ := p
      have hs := breakOnFirst_eq sep s pre post h
      have hne := splitOnFuel_ne_nil sep n post
      show joinWithSep sep (pre :: splitOnFuel sep n post) = s
      cases hL : splitOnFuel sep n post with
      | nil => exact absurd hL hne
      | cons a as =>
        have hdef : joinWithSep sep (pre :: a :: as) =
            pre ++ sep ++ joinWithSep sep (a :: as) := rfl
        rw [hdef, ← hL, ih post, hs]

theorem joinWithSep_cons (sep : List Char) :
    ∀ (xs : List (List Char)) (x : List Char),
      joinWithSep sep (x :: xs) =
        x ++ (xs.map (fun y => sep ++ y)).flatten := by
  intro xs
  induction xs with
  | nil => intro x; simp [joinWithSep]
  | cons y ys ih =>
    intro x
    have hdef : joinWithSep sep (x :: y :: ys) =
        x ++ sep ++ joinWithSep sep (y :: ys) := rfl
    rw [hdef, ih y]
    simp [List.append_assoc]

theorem flatten_splitKeep (sep s : List Char) : (splitKeep sep s).flatten = s := by
  unfold splitKeep splitOnL
  cases h : splitOnFuel sep (s.length + 1) s with
  | nil => exact absurd h (splitOnFuel_ne_nil sep (s.length + 1) s)
  | cons x xs =>
    have hj := joinWithSep_splitOnFuel sep (s.length + 1) s
    rw [h] at hj
    calc (x :: xs.map (fun y => sep ++ y)).flatten
        = x ++ (xs.map (fun y => sep ++ y)).flatten := by simp
      _ = joinWithSep sep (x :: xs) := (joinWithSep_cons sep xs x).symm
      _ = s := hj

theorem flatten_filter_ne_nil (l : List (List Char)) :
    (l.filter (fun s => ¬ s = [])).flatten = l.flatten := by
  induction l with
  | nil => rfl
  | cons x xs ih =>
    cases x with
    | nil => simpa using ih
    | cons c cs => simpa using ih

theorem flatten_map_singleton (t : List Char) :
    (t.map (fun c => [c])).flatten = t := by
  induction t with
  | nil => rfl
  | cons c cs ih => simp [ih]

theorem splitTextWithSep_flatten (sep t : List Char) :
    (splitTextWithSep sep t).flatten = t := by
  unfold splitTextWithSep
  by_cases hsep : sep = []
  · rw [if_pos hsep, flatten_filter_ne_nil, flatten_map_singleton]
  · rw [if_neg hsep, flatten_filter_ne_nil, flatten_splitKeep]

theorem length_le_flatten_length {s : List Char} :
    ∀ {l : List (List Char)}, s ∈ l → s.length ≤ l.flatten.length := by
  intro l
  induction l with
  | nil => intro h; cases h
  | cons x xs ih =>
    intro h
    rw [List.mem_cons] at h
    rcases h with rfl | h
    · simp
    · have := ih h
      simp only [List.flatten_cons, List.length_append]
      omega

theorem intercalate_nil_flatten : ∀ l : List (List Char),
    List.intercalate [] l = l.flatten := by
  intro l
  induction l with
  | nil => rfl
  | cons x xs ih =>
    cases xs with
    | nil => simp [List.intercalate, List.intersperse]
    | cons y ys =>
      have hdef : List.intersperse ([] : List Char) (x :: y :: ys) =
          x :: [] :: List.intersperse [] (y :: ys) := rfl
      unfold List.intercalate at ih ⊢
      rw [hdef]
      simp [ih]

/-- With every piece fitting inside the chunk size, the merge loop never
flushes: it accumulates everything into a single chunk, the stripped join
of all pieces. -/
theorem mergeSplitsAux_all_fit (cs ov : Int) :
    ∀ (ds docs cur : List (List Char)) (total : Int),
      total = (cur.flatten.length : Int) →
      (cur.flatten.length : Int) + (ds.flatten.length : Int) ≤ cs →
      mergeSplitsAux cs ov 0 [] ds docs cur total =
        docs ++ (match joinDocs [] (cur ++ ds) with
          | some d => [d]
          | none => []) := by
  intro ds
  induction ds with
  | nil =>
    intro docs cur total htot hle
    simp only [mergeSplitsAux, List.append_nil]
    cases h : joinDocs [] cur <;> simp [h]
  | cons d ds ih =>
    intro docs cur total htot hle
    have hflat : (d :: ds).flatten.length = d.length + ds.flatten.length := by
      simp [List.flatten_cons]
    have hcur2 : (cur ++ [d]).flatten.length =
        cur.flatten.length + d.length := by
      simp [List.flatten_append]
    have hcond : ¬ (total + (d.length : Int) + 0 > cs) := by
      omega
    simp only [mergeSplitsAux, ite_self]
    rw [if_neg hcond]
    show mergeSplitsAux cs ov 0 [] ds docs (cur ++ [d])
        (total + (d.length : Int) + 0) =
      docs ++ (match joinDocs [] (cur ++ d :: ds) with
        | some d => [d]
        | none => [])
    rw [ih docs (cur ++ [d]) (total + (d.length : Int) + 0)
      (by omega) (by omega)]
    have hassoc : (cur ++ [d]) ++ ds = cur ++ d :: ds := by simp
    rw [hassoc]

/-- With every piece strictly shorter than the chunk size, the piece loop
never takes the oversized branch: it merges all pieces in one batch. -/
theorem splitGo_all_good (cs ov : Int) (hb : List Char → List (List Char)) :
    ∀ (splits good : List (List Char)),
      (∀ s ∈ splits, (s.length : Int) < cs) →
      splitGo cs ov hb splits good =
        (if good ++ splits = [] then []
         else mergeSplits cs ov [] (good ++ splits)) := by
  intro splits
  induction splits with
  | nil =>
    intro good h
    simp [splitGo]
  | cons s rest ih =>
    intro good h
    have hs : (s.length : Int) < cs := h s (List.mem_cons_self s rest)
    simp only [splitGo]
    rw [if_pos hs, ih (good ++ [s])
      (fun x hx => h x (List.mem_cons_of_mem s hx))]
    have hassoc : (good ++ [s]) ++ rest = good ++ s :: rest := by simp
    rw [hassoc]

/-- A non-empty text shorter than the chunk size splits (with any chosen
separator) into pieces that all fit, so the splitter returns the single
chunk `stripL t`. -/
theorem splitTextFuel_single (fuel : Nat) (seps : List (List Char))
    (t : List Char) (h1 : ¬ t = []) (h2 : (t.length : Int) < 1000)
    (h3 : ¬ stripL t = []) :
    splitTextFuel 1000 200 (fuel + 1) seps t = [stripL t] := by
  simp only [splitTextFuel]
  have hflat : (splitTextWithSep (chooseSep t seps).1 t).flatten = t :=
    splitTextWithSep_flatten _ t
  have hlt : ∀ s ∈ splitTextWithSep (chooseSep t seps).1 t,
      (s.length : Int) < 1000 := by
    intro s hs
    have hle := length_le_flatten_length hs
    rw [hflat] at hle
    omega
  rw [splitGo_all_good 1000 200 _ _ [] hlt]
  have hne : ¬ (([] : List (List Char)) ++
      splitTextWithSep (chooseSep t seps).1 t = []) := by
    simp only [List.nil_append]
    intro h0
    rw [h0] at hflat
    exact h1 hflat.symm
  rw [if_neg hne]
  simp only [List.nil_append]
  show mergeSplitsAux 1000 200 0 [] (splitTextWithSep (chooseSep t seps).1 t)
      [] [] 0 = [stripL t]
  rw [mergeSplitsAux_all_fit 1000 200 (splitTextWithSep (chooseSep t seps).1 t)
    [] [] 0 (by simp) (by simp [hflat]; omega)]
  have hjd : joinDocs [] (splitTextWithSep (chooseSep t seps).1 t) =
      some (stripL t) := by
    unfold joinDocs
    rw [intercalate_nil_flatten, hflat, if_neg h3]
  simp only [List.nil_append, hjd]

/-- C4 (counterexample): the claim says concatenating the Chunker's
fragments and removing the declared overlap reproduces the input exactly.
On the non-empty input "a " the splitter returns the single fragment "a"
(the merge strips whitespace from every emitted chunk), and with a single
fragment the reconstruction is that fragment itself, which differs from
the original text. -/
theorem C4_counterexample :
    split_text "a ".data = ["a".data] ∧ ¬ ("a".data = "a ".data) := by
  exact ⟨by decide, by decide⟩

/-- C4 (amended): for every non-empty input text shorter than the
configured chunk size (1000) whose whitespace-stripped form is non-empty,
the Chunker returns exactly one fragment, equal to the input with leading
and trailing whitespace stripped — reconstruction by concatenation is
exact only up to that whitespace stripping. -/
theorem C4_amended (t : List Char) (h1 : ¬ t = []) (h2 : t.length < 1000)
    (h3 : ¬ stripL t = []) :
    split_text t = [stripL t] := by
  show splitTextFuel 1000 200 (4 + 1) splitterSeparators t = [stripL t]
  exact splitTextFuel_single 4 splitterSeparators t h1 (by exact_mod_cast h2) h3

/-- C4 (witness for the amended theorem): on "hello world" the chunker
returns the single fragment "hello world", reconstructing the input. -/
theorem C4_amended_witness :
    ¬ "hello world".data = [] ∧ "hello world".data.length < 1000 ∧
    ¬ stripL "hello world".data = [] ∧
    split_text "hello world".data = [stripL "hello world".data] :=
  ⟨by decide, by decide, by decide,
    C4_amended "hello world".data (by decide) (by decide) (by decide)⟩

end AiLawyer
